import Mathlib

/-!
Verification of the Raspberry Pi autofocus controller
(`src/ipa/raspberrypi/controller/rpi/af.cpp`) against its specification.

The C++ code is shallowly embedded below.  `double` values are modelled as `ℚ`
(all operations the claims exercise are exact field arithmetic, comparisons and
clamping, so the rational model agrees with any exact-real reading of the
code).  The `uint32_t` counters and confidence values are modelled as `ℕ`; the
confidence accumulation of `getPhase` stays far below `2^32` for configurations
satisfying the documented invariant `confThresh ≤ confClip` (confidences are
clipped to `confClip` and the window weights sum to at most `2400`), so no
`% 2^32` wrap is modelled and truncated `ℕ` subtraction coincides with the
machine subtraction there.  The position map (class `Pwl`, whose implementation
lives outside the repository snapshot) is modelled from the spec.
-/

/-- std::clamp as used by the controller: `v` limited to `[lo, hi]`. -/
def clampQ (v lo hi : ℚ) : ℚ :=
  if v < lo then lo else if hi < v then hi else v

/-- C++ conversion of a `double` to `int`: truncation toward zero. -/
def ratTrunc (q : ℚ) : ℤ :=
  q.num / (q.den : ℤ)

/-- PDAF grid height (`PDAF_DATA_ROWS`). -/
abbrev pdafDataRows : ℕ := 12

/-- PDAF grid width (`PDAF_DATA_COLS`). -/
abbrev pdafDataCols : ℕ := 16

/-- One frame of PDAF statistics: per-cell phase difference and confidence. -/
structure PdafData where
  phase : Fin pdafDataRows → Fin pdafDataCols → ℤ
  conf : Fin pdafDataRows → Fin pdafDataCols → ℕ

/-- Internal scan state machine (`enum class ScanState`), in declaration order. -/
inductive ScanState
  | Idle
  | Trigger
  | Pdaf
  | Coarse
  | Fine
  | Settle
deriving DecidableEq

/-- Ordinal of a scan state; the C++ code compares states by this order. -/
def ScanState.toNat : ScanState → ℕ
  | .Idle => 0
  | .Trigger => 1
  | .Pdaf => 2
  | .Coarse => 3
  | .Fine => 4
  | .Settle => 5

/-- User-visible focus status (`enum AfState`). -/
inductive AfState
  | Idle
  | Scanning
  | Focused
  | Failed
deriving DecidableEq

/-- Autofocus mode (`enum AfMode`). -/
inductive AfMode
  | Manual
  | Auto
  | Continuous
deriving DecidableEq

/-- One scan-history sample (`struct ScanRecord`). -/
structure ScanRecord where
  focus : ℚ
  contrast : ℚ
  phase : ℚ
  conf : ℚ
deriving DecidableEq

/-- Modelled from the spec: class `Pwl` (its implementation file is not part of
this snapshot).  A sorted piecewise-linear curve given by its control points. -/
structure Pwl where
  points : List (ℚ × ℚ)

/-- Modelled from the spec: `Pwl::empty`. -/
def Pwl.isEmptyMap (m : Pwl) : Bool :=
  m.points.isEmpty

/-- Modelled from the spec: `Pwl::append` adds a control point at the end. -/
def Pwl.append (m : Pwl) (x y : ℚ) : Pwl :=
  ⟨m.points ++ [(x, y)]⟩

/-- Modelled from the spec: linear interpolation along the spans of the curve,
extrapolating from the first span below and the last span above. -/
def pwlEvalSegs : List (ℚ × ℚ) → ℚ → ℚ
  | [], _ => 0
  | [(_, y0)], _ => y0
  | (x0, y0) :: (x1, y1) :: rest, x =>
    if x < x1 ∨ rest = [] then y0 + (x - x0) * (y1 - y0) / (x1 - x0)
    else pwlEvalSegs ((x1, y1) :: rest) x

/-- Modelled from the spec: `Pwl::eval`, interpolating between control points. -/
def Pwl.eval (m : Pwl) (x : ℚ) : ℚ :=
  pwlEvalSegs m.points x

/-- Modelled from the spec: `Pwl::domain().clip`, bounding a dioptre value to
the interval between the first and last control point abscissae. -/
def Pwl.domainClip (m : Pwl) (x : ℚ) : ℚ :=
  clampQ x ((m.points.headD (0, 0)).1) ((m.points.getLastD (0, 0)).1)

/-- Per-range tuning parameters (`struct RangeDependentParams`). -/
structure RangeDependentParams where
  focusMin : ℚ
  focusMax : ℚ
  focusDefault : ℚ

/-- Default range parameters from the `RangeDependentParams` constructor. -/
def defaultRangeParams : RangeDependentParams :=
  { focusMin := 0, focusMax := 12, focusDefault := 1 }

/-- Per-speed tuning parameters (`struct SpeedDependentParams`). -/
structure SpeedDependentParams where
  stepCoarse : ℚ
  stepFine : ℚ
  contrastRatio : ℚ
  pdafGain : ℚ
  pdafSquelch : ℚ
  maxSlew : ℚ
  pdafFrames : ℕ
  dropoutFrames : ℕ
  stepFrames : ℕ

/-- Default speed parameters from the `SpeedDependentParams` constructor. -/
def defaultSpeedParams : SpeedDependentParams :=
  { stepCoarse := 1, stepFine := 0.25, contrastRatio := 0.75, pdafGain := -0.02,
    pdafSquelch := 0.125, maxSlew := 2, pdafFrames := 20, dropoutFrames := 6,
    stepFrames := 4 }

/-- Number of focus ranges (`AfRangeMax`). -/
abbrev afRangeMax : ℕ := 3

/-- Number of speed presets (`AfSpeedMax`). -/
abbrev afSpeedMax : ℕ := 2

/-- Tuning-file configuration (`struct CfgParams`). -/
structure CfgParams where
  ranges : Fin afRangeMax → RangeDependentParams
  speeds : Fin afSpeedMax → SpeedDependentParams
  confEpsilon : ℕ
  confThresh : ℕ
  confClip : ℕ
  skipFrames : ℕ
  map : Pwl

/-- Default configuration from the `CfgParams` constructor. -/
def defaultCfgParams : CfgParams :=
  { ranges := fun _ => defaultRangeParams, speeds := fun _ => defaultSpeedParams,
    confEpsilon := 8, confThresh := 16, confClip := 512, skipFrames := 5,
    map := ⟨[]⟩ }

/-- Af::CfgParams::initialise — synthesize the default dioptre-to-hardware map
`[(0, 445), (15, 925)]` when the tuning file supplied none. -/
def CfgParams.initialise (c : CfgParams) : CfgParams :=
  if c.map.isEmptyMap then { c with map := (c.map.append 0 445).append 15 925 }
  else c

/-- Mutable state of the `Af` algorithm object (the controller's data members;
the metering-window machinery is kept abstract as the resulting phase-weight
grid and its total, which is all the claims touch). -/
structure Af where
  cfg : CfgParams
  range : Fin afRangeMax
  speed : Fin afSpeedMax
  mode : AfMode
  pauseFlag : Bool
  phaseWeights : Fin pdafDataRows → Fin pdafDataCols → ℕ
  sumWeights : ℕ
  scanState : ScanState
  initted : Bool
  ftarget : ℚ
  fsmooth : ℚ
  prevContrast : ℚ
  skipCount : ℕ
  stepCount : ℕ
  dropCount : ℕ
  scanMaxContrast : ℚ
  scanMinContrast : ℚ
  scanMaxIndex : ℕ
  scanData : List ScanRecord
  reportState : AfState

/-- State of a freshly constructed `Af` object with the default tuning applied
(constructor initializer list plus `initialise()`). -/
def Af.initial : Af :=
  { cfg := defaultCfgParams.initialise, range := 0, speed := 0,
    mode := AfMode.Manual, pauseFlag := false, phaseWeights := fun _ _ => 0,
    sumWeights := 0, scanState := ScanState.Idle, initted := false,
    ftarget := -1, fsmooth := -1, prevContrast := 0, skipCount := 0,
    stepCount := 0, dropCount := 0, scanMaxContrast := 0,
    scanMinContrast := 1000000000, scanMaxIndex := 0, scanData := [],
    reportState := AfState.Idle }

/-- Per-cell accumulation step of `Af::getPhase`: a cell with nonzero weight
and raw confidence at least `confThresh` contributes its weight times the
bias-corrected confidence (clipped to `confClip`, then `confThresh >> 2`
subtracted) to the confidence sum, and its weight times raw phase times the
further-reduced confidence to the phase sum. -/
def phaseAcc (cfg : CfgParams) (w : ℕ) (conf : ℕ) (ph : ℤ) (acc : ℕ × ℤ) : ℕ × ℤ :=
  if w ≠ 0 then
    if conf ≥ cfg.confThresh then
      let c := min conf cfg.confClip - cfg.confThresh / 4
      (acc.1 + w * c, acc.2 + (w : ℤ) * ph * ((c - cfg.confThresh / 4 : ℕ) : ℤ))
    else acc
  else acc

/-- Loop nest of `Af::getPhase`, accumulating `(sumWc, sumWcp)` over the grid. -/
def Af.phaseSums (st : Af) (data : PdafData) : ℕ × ℤ :=
  (List.finRange pdafDataRows).foldl
    (fun acc i =>
      (List.finRange pdafDataCols).foldl
        (fun acc j => phaseAcc st.cfg (st.phaseWeights i j) (data.conf i j) (data.phase i j) acc)
        acc)
    (0, 0)

/-- Af::getPhase — fuse the PDAF grid into `(valid, phase, conf)`; the C++
output parameters become the last two components of the result. -/
def Af.getPhase (st : Af) (data : PdafData) : Bool × ℚ × ℚ :=
  let acc := st.phaseSums data
  if 0 < st.sumWeights ∧ st.sumWeights ≤ acc.1 then
    (true, (acc.2 : ℚ) / (acc.1 : ℚ), (acc.1 : ℚ) / (st.sumWeights : ℚ))
  else
    (false, 0, 0)

/-- Af::doPDAF — one closed-loop PDAF control step. -/
def doPDAF (phase0 conf : ℚ) (st : Af) : Af :=
  let sp := st.cfg.speeds st.speed
  let rg := st.cfg.ranges st.range
  let phase1 := phase0 * sp.pdafGain
  let pc : ℚ × Af :=
    if st.mode = AfMode.Continuous then
      let ph := phase1 * (conf / (conf + (st.cfg.confEpsilon : ℚ)))
      let ph2 := if |ph| < sp.pdafSquelch then ph * ((ph / sp.pdafSquelch) * (ph / sp.pdafSquelch)) else ph
      (ph2, st)
    else
      if sp.stepFrames ≤ st.stepCount then
        if |phase1| < sp.pdafSquelch then (phase1, { st with stepCount := sp.stepFrames })
        else (phase1, st)
      else (phase1 * ((st.stepCount / sp.stepFrames : ℕ) : ℚ), st)
  let st1 := pc.2
  let rp : ℚ × AfState :=
    if pc.1 < -sp.maxSlew then
      (-sp.maxSlew, if st1.ftarget ≤ rg.focusMin then AfState.Failed else AfState.Scanning)
    else if pc.1 > sp.maxSlew then
      (sp.maxSlew, if st1.ftarget ≥ rg.focusMax then AfState.Failed else AfState.Scanning)
    else (pc.1, AfState.Focused)
  { st1 with reportState := rp.2, ftarget := st1.fsmooth + rp.1 }

/-- Af::earlyTerminationByPhase — when the previous scan sample is confident
and the phase gradient has the right sign, extrapolate the zero-phase lens
position; returns the C++ boolean and the (possibly updated) state. -/
def earlyTerminationByPhase (phase : ℚ) (st : Af) : Bool × Af :=
  if 0 < st.scanData.length ∧
      (st.scanData.getD (st.scanData.length - 1) ⟨0, 0, 0, 0⟩).conf ≥ (st.cfg.confEpsilon : ℚ) then
    let oldFocus := (st.scanData.getD (st.scanData.length - 1) ⟨0, 0, 0, 0⟩).focus
    let oldPhase := (st.scanData.getD (st.scanData.length - 1) ⟨0, 0, 0, 0⟩).phase
    if 0 < (st.ftarget - oldFocus) * (phase - oldPhase) then
      let param := phase / (phase - oldPhase)
      if -3 ≤ param ∧ param ≤ 3.5 then
        (true, { st with ftarget := st.ftarget + param * (oldFocus - st.ftarget) })
      else (false, st)
    else (false, st)
  else (false, st)

/-- Af::findPeak — quadratic peak interpolation around scan sample `i`. -/
def Af.findPeak (st : Af) (i : ℕ) : ℚ :=
  let f := (st.scanData.getD i ⟨0, 0, 0, 0⟩).focus
  if 0 < i ∧ i + 1 < st.scanData.length then
    let dropLo := (st.scanData.getD i ⟨0, 0, 0, 0⟩).contrast -
      (st.scanData.getD (i - 1) ⟨0, 0, 0, 0⟩).contrast
    let dropHi := (st.scanData.getD i ⟨0, 0, 0, 0⟩).contrast -
      (st.scanData.getD (i + 1) ⟨0, 0, 0, 0⟩).contrast
    if 0 ≤ dropLo ∧ dropLo < dropHi then
      f + (0.3125 * (1 - dropLo / dropHi) * (1.6 - dropLo / dropHi)) *
        ((st.scanData.getD (i - 1) ⟨0, 0, 0, 0⟩).focus - f)
    else if 0 ≤ dropHi ∧ dropHi < dropLo then
      f + (0.3125 * (1 - dropHi / dropLo) * (1.6 - dropHi / dropLo)) *
        ((st.scanData.getD (i + 1) ⟨0, 0, 0, 0⟩).focus - f)
    else f
  else f

/-- Af::doScan — record the current sample and advance or finish the
coarse/fine programmed scan. -/
def doScan (contrast phase conf : ℚ) (st : Af) : Af :=
  let st1 :=
    if st.scanData.isEmpty ∨ contrast > st.scanMaxContrast then
      { st with scanMaxContrast := contrast, scanMaxIndex := st.scanData.length }
    else st
  let st2 :=
    if contrast < st1.scanMinContrast then { st1 with scanMinContrast := contrast } else st1
  let st3 := { st2 with scanData := st2.scanData ++ [(⟨st2.ftarget, contrast, phase, conf⟩ : ScanRecord)] }
  let st4 :=
    if st3.scanState = ScanState.Coarse then
      if st3.ftarget ≥ (st3.cfg.ranges st3.range).focusMax ∨
          contrast < (st3.cfg.speeds st3.speed).contrastRatio * st3.scanMaxContrast then
        { st3 with
          ftarget := min st3.ftarget
            (st3.findPeak st3.scanMaxIndex + 2 * (st3.cfg.speeds st3.speed).stepFine),
          scanState := ScanState.Fine, scanData := [] }
      else { st3 with ftarget := st3.ftarget + (st3.cfg.speeds st3.speed).stepCoarse }
    else
      if st3.ftarget ≤ (st3.cfg.ranges st3.range).focusMin ∨ 5 ≤ st3.scanData.length ∨
          contrast < (st3.cfg.speeds st3.speed).contrastRatio * st3.scanMaxContrast then
        { st3 with ftarget := st3.findPeak st3.scanMaxIndex, scanState := ScanState.Settle }
      else { st3 with ftarget := st3.ftarget - (st3.cfg.speeds st3.speed).stepFine }
  { st4 with
    stepCount := if st4.ftarget = st4.fsmooth then 0 else (st4.cfg.speeds st4.speed).stepFrames }

/-- Af::updateLensPosition — clamp the target into the active range when the
state machine is at `Pdaf` or beyond, then slew-limit `fsmooth` toward it
(or snap to it when no starting position is known yet). -/
def updateLensPosition (st : Af) : Af :=
  let st1 :=
    if ScanState.Pdaf.toNat ≤ st.scanState.toNat then
      { st with
        ftarget := clampQ st.ftarget (st.cfg.ranges st.range).focusMin
          (st.cfg.ranges st.range).focusMax }
    else st
  if st1.initted then
    { st1 with
      fsmooth := clampQ st1.ftarget (st1.fsmooth - (st1.cfg.speeds st1.speed).maxSlew)
        (st1.fsmooth + (st1.cfg.speeds st1.speed).maxSlew) }
  else
    { st1 with fsmooth := st1.ftarget, initted := true, skipCount := st1.cfg.skipFrames }

/-- Af::startProgrammedScan — begin a coarse contrast scan at the range
minimum. -/
def startProgrammedScan (st : Af) : Af :=
  let st1 := updateLensPosition { st with ftarget := (st.cfg.ranges st.range).focusMin }
  { st1 with
    scanState := ScanState.Coarse, scanMaxContrast := 0, scanMinContrast := 1000000000,
    scanMaxIndex := 0, scanData := [],
    stepCount := (st1.cfg.speeds st1.speed).stepFrames, reportState := AfState.Scanning }

/-- Af::startAF — enter PDAF tracking when the tuning allows it, else start a
programmed scan. -/
def startAF (st : Af) : Af :=
  if 0 < (st.cfg.speeds st.speed).dropoutFrames ∧
      (st.mode = AfMode.Continuous ∨ 0 < (st.cfg.speeds st.speed).pdafFrames) then
    let st1 :=
      if st.initted = false then
        updateLensPosition { st with ftarget := (st.cfg.ranges st.range).focusDefault }
      else st
    { st1 with
      stepCount := if st1.mode = AfMode.Continuous then 0 else (st1.cfg.speeds st1.speed).pdafFrames,
      scanState := ScanState.Pdaf, scanData := [], dropCount := 0,
      reportState := AfState.Scanning }
  else startProgrammedScan st

/-- Af::goIdle. -/
def goIdle (st : Af) : Af :=
  { st with scanState := ScanState.Idle, reportState := AfState.Idle, scanData := [] }

/-- Af::doAF — the per-frame state-machine update (contrast is the previous
frame's fused contrast, phase/conf the fused PDAF pair). -/
def doAF (contrast phase conf : ℚ) (st : Af) : Af :=
  if 0 < st.skipCount then { st with skipCount := st.skipCount - 1 }
  else if st.scanState = ScanState.Pdaf then
    if conf > (if st.dropCount ≠ 0 then (1 : ℚ) else 0.25) * (st.cfg.confEpsilon : ℚ) then
      let st1 := doPDAF phase conf st
      let st2 :=
        if 0 < st1.stepCount then { st1 with stepCount := st1.stepCount - 1 }
        else if st1.mode ≠ AfMode.Continuous then { st1 with scanState := ScanState.Idle }
        else st1
      { st2 with dropCount := 0 }
    else
      let st1 := { st with dropCount := st.dropCount + 1 }
      if st1.dropCount = (st1.cfg.speeds st1.speed).dropoutFrames then startProgrammedScan st1
      else st1
  else if ScanState.Coarse.toNat ≤ st.scanState.toNat ∧ st.fsmooth = st.ftarget then
    if 0 < st.stepCount then { st with stepCount := st.stepCount - 1 }
    else if st.scanState = ScanState.Settle then
      let report :=
        if st.prevContrast ≥ (st.cfg.speeds st.speed).contrastRatio * st.scanMaxContrast ∧
            st.scanMinContrast ≤ (st.cfg.speeds st.speed).contrastRatio * st.scanMaxContrast
        then AfState.Focused else AfState.Failed
      let next :=
        if st.mode = AfMode.Continuous ∧ st.pauseFlag = false ∧
            0 < (st.cfg.speeds st.speed).dropoutFrames
        then ScanState.Pdaf else ScanState.Idle
      { st with reportState := report, scanState := next, scanData := [] }
    else if conf ≥ (st.cfg.confEpsilon : ℚ) then
      if (earlyTerminationByPhase phase st).1 then
        { (earlyTerminationByPhase phase st).2 with
          scanState := ScanState.Settle,
          stepCount := if st.mode = AfMode.Continuous then 0
            else (st.cfg.speeds st.speed).stepFrames }
      else doScan contrast phase conf (earlyTerminationByPhase phase st).2
    else doScan contrast phase conf st
  else st

/-- Af::setSpeed — the argument is the raw enum value, validated against
`AfSpeedMax`. -/
def setSpeed (s : ℕ) (st : Af) : Af :=
  if h : s < afSpeedMax then
    let st1 :=
      if st.scanState = ScanState.Pdaf ∧
          (st.cfg.speeds st.speed).pdafFrames < (st.cfg.speeds ⟨s, h⟩).pdafFrames then
        { st with
          stepCount := st.stepCount +
            ((st.cfg.speeds ⟨s, h⟩).pdafFrames - (st.cfg.speeds st.speed).pdafFrames) }
      else st
    { st1 with speed := ⟨s, h⟩ }
  else st

/-- Af::setLensPosition — manual-mode target set; the result is the returned
boolean, the new state, and the hardware position the C++ code stores through
a non-null `hwpos` pointer. -/
def setLensPosition (dioptres : ℚ) (st : Af) : Bool × Af × ℤ :=
  let p : Bool × Af :=
    if st.mode = AfMode.Manual then
      let st1 := { st with ftarget := st.cfg.map.domainClip dioptres }
      (!(st1.initted && decide (st1.fsmooth = st1.ftarget)), updateLensPosition st1)
    else (false, st)
  (p.1, p.2, ratTrunc (p.2.cfg.map.eval p.2.fsmooth))

/-- Af::getLensPosition — the best-known current lens position. -/
def Af.getLensPosition (st : Af) : Option ℚ :=
  if st.initted then some st.fsmooth else none

/-- Af::setMode. -/
def setMode (m : AfMode) (st : Af) : Af :=
  if st.mode ≠ m then
    let st1 := { st with mode := m, pauseFlag := false }
    if m = AfMode.Continuous then { st1 with scanState := ScanState.Trigger }
    else if m ≠ AfMode.Auto ∨ st1.scanState.toNat < ScanState.Coarse.toNat then goIdle st1
    else st1
  else st

/-- Iterated programmed-scan steps: each scan step is one `doAF` frame that
reaches `doScan` followed by its `updateLensPosition` (the lens-settling and
slew frames between two scan steps leave `ftarget`, `scanState` and the scan
history unchanged, so they are dropped from the iteration). -/
def scanRun (c p cf : ℕ → ℚ) (st : Af) : ℕ → Af
  | 0 => st
  | n + 1 => updateLensPosition (doScan (c n) (p n) (cf n) (scanRun c p cf st n))


lemma clampQ_sub_abs_le (t c s : ℚ) (hs : 0 ≤ s) : |clampQ t (c - s) (c + s) - c| ≤ s := by
  unfold clampQ
  split_ifs with h1 h2 <;> rw [abs_le] <;> constructor <;> linarith

lemma clampQ_mem (v lo hi : ℚ) (h : lo ≤ hi) : lo ≤ clampQ v lo hi ∧ clampQ v lo hi ≤ hi := by
  unfold clampQ
  split_ifs <;> constructor <;> linarith

lemma updateLensPosition_fsmooth_initted (st : Af) (hin : st.initted = true) :
    (updateLensPosition st).fsmooth =
      clampQ (updateLensPosition st).ftarget
        (st.fsmooth - (st.cfg.speeds st.speed).maxSlew)
        (st.fsmooth + (st.cfg.speeds st.speed).maxSlew) := by
  unfold updateLensPosition
  by_cases hc : ScanState.Pdaf.toNat ≤ st.scanState.toNat <;> simp [hc, hin]

/-- C2: once a starting lens position is known (`initted` holds before the
call), a single `updateLensPosition` changes the smoothed position `fsmooth`
by at most the active speed setting's `maxSlew`. -/
theorem updateLensPosition_slew_bound (st : Af)
    (hin : st.initted = true) (hs : 0 ≤ (st.cfg.speeds st.speed).maxSlew) :
    |(updateLensPosition st).fsmooth - st.fsmooth| ≤ (st.cfg.speeds st.speed).maxSlew := by
  rw [updateLensPosition_fsmooth_initted st hin]
  exact clampQ_sub_abs_le _ _ _ hs

/-- Convenient concrete state: the freshly constructed controller with a known
lens position. -/
def wInitted : Af :=
  { Af.initial with initted := true }

theorem updateLensPosition_slew_bound_w :
    wInitted.initted = true ∧ 0 ≤ (wInitted.cfg.speeds wInitted.speed).maxSlew ∧
    |(updateLensPosition wInitted).fsmooth - wInitted.fsmooth| ≤
      (wInitted.cfg.speeds wInitted.speed).maxSlew := by
  have hs : 0 ≤ (wInitted.cfg.speeds wInitted.speed).maxSlew := by
    norm_num [wInitted, Af.initial, defaultCfgParams, defaultSpeedParams,
      CfgParams.initialise, Pwl.isEmptyMap]
  exact ⟨rfl, hs, updateLensPosition_slew_bound wInitted rfl hs⟩

/-- C7: in Manual mode with no known lens position and the default position
map `[(0, 445), (15, 925)]`, `setLensPosition 5.0` makes `getLensPosition`
return `5.0` and writes the hardware position
`445 + 5.0 * (925 - 445) / 15 = 605` through `hwpos`. -/
theorem manual_setLensPosition_scenario :
    (setLensPosition 5 Af.initial).2.1.getLensPosition = some 5 ∧
    (setLensPosition 5 Af.initial).2.2 = 605 := by
  constructor <;>
    norm_num [setLensPosition, Af.initial, Af.getLensPosition, defaultCfgParams,
      CfgParams.initialise, Pwl.isEmptyMap, Pwl.append, Pwl.domainClip, Pwl.eval,
      pwlEvalSegs, clampQ, updateLensPosition, ScanState.toNat, ratTrunc,
      defaultRangeParams, defaultSpeedParams]

/-- Convenient concrete state: the freshly constructed controller switched to
Auto mode. -/
def wAuto : Af :=
  setMode AfMode.Auto Af.initial

/-- C10: outside Manual mode, `setLensPosition` leaves the state unchanged and
returns false, yet still writes the hardware mapping of the current `fsmooth`
through a non-null `hwpos`; the call returns true exactly when the mode is
Manual and the controller is not already initted at the clipped requested
position. -/
theorem setLensPosition_nonmanual_effect (d : ℚ) (st : Af) :
    (st.mode ≠ AfMode.Manual →
      (setLensPosition d st).2.1 = st ∧ (setLensPosition d st).1 = false ∧
      (setLensPosition d st).2.2 = ratTrunc (st.cfg.map.eval st.fsmooth)) ∧
    ((setLensPosition d st).1 = true ↔
      st.mode = AfMode.Manual ∧
        ¬(st.initted = true ∧ st.fsmooth = st.cfg.map.domainClip d)) := by
  by_cases hm : st.mode = AfMode.Manual
  · refine ⟨fun h => absurd hm h, ?_⟩
    simp only [setLensPosition, hm, if_pos, Bool.not_eq_true', Bool.and_eq_false_iff,
      decide_eq_false_iff_not, Bool.not_eq_true, true_and]
    cases hb : st.initted <;> simp [hb]
  · refine ⟨fun _ => ?_, ?_⟩
    · simp [setLensPosition, hm]
    · simp [setLensPosition, hm]

theorem setLensPosition_nonmanual_effect_w :
    wAuto.mode ≠ AfMode.Manual ∧
    (setLensPosition 5 wAuto).2.1 = wAuto ∧ (setLensPosition 5 wAuto).1 = false ∧
    (setLensPosition 5 wAuto).2.2 = ratTrunc (wAuto.cfg.map.eval wAuto.fsmooth) := by
  have hm : wAuto.mode ≠ AfMode.Manual := by
    simp [wAuto, setMode, Af.initial, goIdle, ScanState.toNat]
  exact ⟨hm, (setLensPosition_nonmanual_effect 5 wAuto).1 hm⟩

/-- C8: `setSpeed` rejects a raw speed value at or above `AfSpeedMax` without
touching the state; an accepted value becomes the active speed, and
`stepCount` grows by exactly the increase of the `pdafFrames` budget when the
controller is tracking in `Pdaf` and the new budget is larger, and is
unchanged in every other case. -/
theorem setSpeed_bounds_and_stepCount (s : ℕ) (st : Af) :
    (afSpeedMax ≤ s → setSpeed s st = st) ∧
    (∀ h : s < afSpeedMax,
      (setSpeed s st).speed = ⟨s, h⟩ ∧
      ((st.scanState = ScanState.Pdaf ∧
          (st.cfg.speeds st.speed).pdafFrames < (st.cfg.speeds ⟨s, h⟩).pdafFrames) →
        (setSpeed s st).stepCount = st.stepCount +
          ((st.cfg.speeds ⟨s, h⟩).pdafFrames - (st.cfg.speeds st.speed).pdafFrames)) ∧
      (¬(st.scanState = ScanState.Pdaf ∧
          (st.cfg.speeds st.speed).pdafFrames < (st.cfg.speeds ⟨s, h⟩).pdafFrames) →
        (setSpeed s st).stepCount = st.stepCount)) := by
  constructor
  · intro hge
    have h2 : ¬s < afSpeedMax := not_lt.mpr hge
    simp [setSpeed, h2]
  · intro h
    by_cases hc : st.scanState = ScanState.Pdaf ∧
        (st.cfg.speeds st.speed).pdafFrames < (st.cfg.speeds ⟨s, h⟩).pdafFrames
    · simp [setSpeed, h, hc]
    · simp [setSpeed, h, hc]

theorem setSpeed_bounds_and_stepCount_w :
    afSpeedMax ≤ 5 ∧ setSpeed 5 Af.initial = Af.initial :=
  ⟨by norm_num, (setSpeed_bounds_and_stepCount 5 Af.initial).1 (by norm_num)⟩

lemma updateLensPosition_proj (st : Af) :
    (updateLensPosition st).cfg = st.cfg ∧
    (updateLensPosition st).range = st.range ∧
    (updateLensPosition st).speed = st.speed ∧
    (updateLensPosition st).scanState = st.scanState ∧
    (updateLensPosition st).mode = st.mode ∧
    (updateLensPosition st).dropCount = st.dropCount ∧
    (updateLensPosition st).pauseFlag = st.pauseFlag ∧
    (updateLensPosition st).scanData = st.scanData ∧
    (updateLensPosition st).stepCount = st.stepCount ∧
    (updateLensPosition st).prevContrast = st.prevContrast ∧
    (updateLensPosition st).scanMaxContrast = st.scanMaxContrast ∧
    (updateLensPosition st).scanMinContrast = st.scanMinContrast ∧
    (updateLensPosition st).scanMaxIndex = st.scanMaxIndex := by
  unfold updateLensPosition
  dsimp only
  split_ifs <;> simp

lemma doPDAF_proj (phase conf : ℚ) (st : Af) :
    (doPDAF phase conf st).scanState = st.scanState ∧
    (doPDAF phase conf st).mode = st.mode ∧
    (doPDAF phase conf st).cfg = st.cfg ∧
    (doPDAF phase conf st).speed = st.speed ∧
    (doPDAF phase conf st).range = st.range ∧
    (doPDAF phase conf st).fsmooth = st.fsmooth ∧
    (doPDAF phase conf st).dropCount = st.dropCount ∧
    (doPDAF phase conf st).skipCount = st.skipCount := by
  unfold doPDAF
  dsimp only
  split_ifs <;> simp

lemma startProgrammedScan_proj (st : Af) :
    (startProgrammedScan st).cfg = st.cfg ∧
    (startProgrammedScan st).range = st.range ∧
    (startProgrammedScan st).speed = st.speed ∧
    (startProgrammedScan st).mode = st.mode ∧
    (startProgrammedScan st).dropCount = st.dropCount ∧
    (startProgrammedScan st).pauseFlag = st.pauseFlag ∧
    (startProgrammedScan st).scanState = ScanState.Coarse ∧
    (startProgrammedScan st).scanData = [] := by
  obtain ⟨h1, h2, h3, _, h5, h6, h7, _⟩ :=
    updateLensPosition_proj { st with ftarget := (st.cfg.ranges st.range).focusMin }
  unfold startProgrammedScan
  dsimp only
  exact ⟨h1, h2, h3, h5, h6, h7, rfl, rfl⟩

lemma doAF_pdaf_track (contrast phase conf : ℚ) (st : Af)
    (hskip : st.skipCount = 0) (hss : st.scanState = ScanState.Pdaf)
    (hc : conf > (if st.dropCount ≠ 0 then (1 : ℚ) else 0.25) * (st.cfg.confEpsilon : ℚ)) :
    doAF contrast phase conf st =
      { (if 0 < (doPDAF phase conf st).stepCount then
          { doPDAF phase conf st with stepCount := (doPDAF phase conf st).stepCount - 1 }
        else if (doPDAF phase conf st).mode ≠ AfMode.Continuous then
          { doPDAF phase conf st with scanState := ScanState.Idle }
        else doPDAF phase conf st) with dropCount := 0 } := by
  unfold doAF
  rw [if_neg (by omega : ¬0 < st.skipCount), if_pos hss, if_pos hc]

lemma doAF_pdaf_drop (contrast phase conf : ℚ) (st : Af)
    (hskip : st.skipCount = 0) (hss : st.scanState = ScanState.Pdaf)
    (hc : ¬conf > (if st.dropCount ≠ 0 then (1 : ℚ) else 0.25) * (st.cfg.confEpsilon : ℚ)) :
    doAF contrast phase conf st =
      (if st.dropCount + 1 = (st.cfg.speeds st.speed).dropoutFrames then
        startProgrammedScan { st with dropCount := st.dropCount + 1 }
      else { st with dropCount := st.dropCount + 1 }) := by
  unfold doAF
  rw [if_neg (by omega : ¬0 < st.skipCount), if_pos hss, if_neg hc]

/-- C9: in the `Pdaf` state with no skip frames pending, the confidence gate
is two-tiered — `0.25 * confEpsilon` when `dropCount = 0` but the full
`confEpsilon` once a dropout frame has been counted; above the gate the frame
runs `doPDAF` and resets `dropCount`, below it the frame counts a dropout,
and `startProgrammedScan` fires (state becomes `Coarse`) exactly when
`dropCount` reaches `dropoutFrames`. -/
theorem pdaf_confidence_hysteresis (contrast phase conf : ℚ) (st : Af)
    (hskip : st.skipCount = 0) (hss : st.scanState = ScanState.Pdaf) :
    ((conf > (if st.dropCount ≠ 0 then (1 : ℚ) else 0.25) * (st.cfg.confEpsilon : ℚ)) →
      (doAF contrast phase conf st).dropCount = 0 ∧
      (doAF contrast phase conf st).ftarget = (doPDAF phase conf st).ftarget) ∧
    (¬(conf > (if st.dropCount ≠ 0 then (1 : ℚ) else 0.25) * (st.cfg.confEpsilon : ℚ)) →
      (doAF contrast phase conf st).dropCount = st.dropCount + 1) ∧
    ((doAF contrast phase conf st).scanState = ScanState.Coarse ↔
      ¬(conf > (if st.dropCount ≠ 0 then (1 : ℚ) else 0.25) * (st.cfg.confEpsilon : ℚ)) ∧
        st.dropCount + 1 = (st.cfg.speeds st.speed).dropoutFrames) := by
  obtain ⟨hps, hpm, hpc, hpsp, hpr, hpf, hpd, hpk⟩ := doPDAF_proj phase conf st
  by_cases hc : conf > (if st.dropCount ≠ 0 then (1 : ℚ) else 0.25) * (st.cfg.confEpsilon : ℚ)
  · rw [doAF_pdaf_track contrast phase conf st hskip hss hc]
    refine ⟨fun _ => ⟨rfl, ?_⟩, fun h => absurd hc h, ?_⟩
    · split_ifs <;> rfl
    · constructor
      · intro hL
        exfalso
        revert hL
        split_ifs <;> simp [hps, hss]
      · rintro ⟨hn, -⟩
        exact absurd hc hn
  · rw [doAF_pdaf_drop contrast phase conf st hskip hss hc]
    refine ⟨fun h => absurd h hc, fun _ => ?_, ?_⟩
    · by_cases h : st.dropCount + 1 = (st.cfg.speeds st.speed).dropoutFrames
      · rw [if_pos h]
        exact (startProgrammedScan_proj _).2.2.2.2.1
      · rw [if_neg h]
    · constructor
      · intro hL
        refine ⟨hc, ?_⟩
        by_contra hne
        rw [if_neg hne] at hL
        exact absurd hL (by simp [hss])
      · rintro ⟨-, heq⟩
        rw [if_pos heq]
        exact (startProgrammedScan_proj _).2.2.2.2.2.2.1

/-- Concrete state: freshly constructed controller placed in the `Pdaf` scan
state. -/
def wPdaf : Af :=
  { Af.initial with scanState := ScanState.Pdaf }

theorem pdaf_confidence_hysteresis_w :
    wPdaf.skipCount = 0 ∧ wPdaf.scanState = ScanState.Pdaf ∧
    (doAF 0 0 0 wPdaf).dropCount = wPdaf.dropCount + 1 := by
  refine ⟨rfl, rfl, (pdaf_confidence_hysteresis 0 0 0 wPdaf rfl rfl).2.1 ?_⟩
  norm_num [wPdaf, Af.initial, defaultCfgParams, CfgParams.initialise, Pwl.isEmptyMap]

lemma doAF_settle (contrast phase conf : ℚ) (st : Af)
    (hskip : st.skipCount = 0) (hss : st.scanState = ScanState.Settle)
    (hfs : st.fsmooth = st.ftarget) (hstep : st.stepCount = 0) :
    doAF contrast phase conf st =
      { st with
        reportState :=
          if st.prevContrast ≥ (st.cfg.speeds st.speed).contrastRatio * st.scanMaxContrast ∧
              st.scanMinContrast ≤ (st.cfg.speeds st.speed).contrastRatio * st.scanMaxContrast
          then AfState.Focused else AfState.Failed,
        scanState :=
          if st.mode = AfMode.Continuous ∧ st.pauseFlag = false ∧
              0 < (st.cfg.speeds st.speed).dropoutFrames
          then ScanState.Pdaf else ScanState.Idle,
        scanData := [] } := by
  unfold doAF
  rw [if_neg (by omega : ¬0 < st.skipCount), if_neg (by simp [hss]),
    if_pos ⟨by rw [hss]; decide, hfs⟩, if_neg (by omega : ¬0 < st.stepCount), if_pos hss]

/-- C4: a Settle-state frame with the countdown expired sets the report state
to Focused exactly when `prevContrast ≥ contrastRatio * scanMaxContrast` and
`scanMinContrast ≤ contrastRatio * scanMaxContrast` (Failed otherwise), moves
to `Pdaf` exactly when the mode is Continuous, the pause latch is clear and
`dropoutFrames > 0` (Idle otherwise), and clears the scan history. -/
theorem settle_report_and_transition (contrast phase conf : ℚ) (st : Af)
    (hskip : st.skipCount = 0) (hss : st.scanState = ScanState.Settle)
    (hfs : st.fsmooth = st.ftarget) (hstep : st.stepCount = 0) :
    ((doAF contrast phase conf st).reportState = AfState.Focused ↔
      st.prevContrast ≥ (st.cfg.speeds st.speed).contrastRatio * st.scanMaxContrast ∧
      st.scanMinContrast ≤ (st.cfg.speeds st.speed).contrastRatio * st.scanMaxContrast) ∧
    ((doAF contrast phase conf st).reportState = AfState.Focused ∨
      (doAF contrast phase conf st).reportState = AfState.Failed) ∧
    ((doAF contrast phase conf st).scanState = ScanState.Pdaf ↔
      st.mode = AfMode.Continuous ∧ st.pauseFlag = false ∧
      0 < (st.cfg.speeds st.speed).dropoutFrames) ∧
    ((doAF contrast phase conf st).scanState = ScanState.Pdaf ∨
      (doAF contrast phase conf st).scanState = ScanState.Idle) ∧
    (doAF contrast phase conf st).scanData = [] := by
  rw [doAF_settle contrast phase conf st hskip hss hfs hstep]
  refine ⟨?_, ?_, ?_, ?_, rfl⟩ <;> dsimp only <;> split_ifs with h <;> simp [h]

/-- Concrete state: freshly constructed controller placed in the `Settle`
scan state (its countdown fields are already zero and `fsmooth = ftarget`). -/
def wSettle : Af :=
  { Af.initial with scanState := ScanState.Settle }

theorem settle_report_and_transition_w :
    wSettle.skipCount = 0 ∧ wSettle.scanState = ScanState.Settle ∧
    wSettle.fsmooth = wSettle.ftarget ∧ wSettle.stepCount = 0 ∧
    (doAF 0 0 0 wSettle).scanData = [] :=
  ⟨rfl, rfl, rfl, rfl, (settle_report_and_transition 0 0 0 wSettle rfl rfl rfl rfl).2.2.2.2⟩

/-- Spec-side per-cell contribution to `sumWc`: weight times bias-corrected
confidence, for a cell with nonzero weight and raw confidence at least
`confThresh` (confidence clipped to `confClip`, `confThresh / 4` subtracted). -/
def cellWc (cfg : CfgParams) (w conf : ℕ) : ℕ :=
  if w ≠ 0 ∧ cfg.confThresh ≤ conf then w * (min conf cfg.confClip - cfg.confThresh / 4) else 0

/-- Spec-side per-cell contribution to `sumWcp`: weight times raw phase times
the further bias-reduced confidence. -/
def cellWcp (cfg : CfgParams) (w conf : ℕ) (ph : ℤ) : ℤ :=
  if w ≠ 0 ∧ cfg.confThresh ≤ conf then
    (w : ℤ) * ph * ((min conf cfg.confClip - cfg.confThresh / 4 - cfg.confThresh / 4 : ℕ) : ℤ)
  else 0

/-- The weighted sum of bias-corrected confidences over the PDAF grid. -/
def specSumWc (st : Af) (data : PdafData) : ℕ :=
  ∑ i, ∑ j, cellWc st.cfg (st.phaseWeights i j) (data.conf i j)

/-- The weighted sum of phase times further bias-reduced confidence. -/
def specSumWcp (st : Af) (data : PdafData) : ℤ :=
  ∑ i, ∑ j, cellWcp st.cfg (st.phaseWeights i j) (data.conf i j) (data.phase i j)

lemma foldlPairAdd {α : Type} (step : ℕ × ℤ → α → ℕ × ℤ) (F : α → ℕ) (G : α → ℤ)
    (h : ∀ p x, step p x = (p.1 + F x, p.2 + G x)) :
    ∀ (l : List α) (p : ℕ × ℤ), l.foldl step p = (p.1 + (l.map F).sum, p.2 + (l.map G).sum)
  | [], p => by simp
  | x :: xs, p => by
    rw [List.foldl_cons, h, foldlPairAdd step F G h xs]
    simp [add_assoc]

lemma phaseAcc_eq (cfg : CfgParams) (w conf : ℕ) (ph : ℤ) (p : ℕ × ℤ) :
    phaseAcc cfg w conf ph p = (p.1 + cellWc cfg w conf, p.2 + cellWcp cfg w conf ph) := by
  unfold phaseAcc cellWc cellWcp
  by_cases h1 : w ≠ 0 <;> by_cases h2 : cfg.confThresh ≤ conf <;>
    simp [h1, h2, ge_iff_le]

lemma phaseSums_eq (st : Af) (data : PdafData) :
    st.phaseSums data = (specSumWc st data, specSumWcp st data) := by
  have hcell : ∀ (i : Fin pdafDataRows) (q : ℕ × ℤ) (j : Fin pdafDataCols),
      phaseAcc st.cfg (st.phaseWeights i j) (data.conf i j) (data.phase i j) q =
      (q.1 + cellWc st.cfg (st.phaseWeights i j) (data.conf i j),
       q.2 + cellWcp st.cfg (st.phaseWeights i j) (data.conf i j) (data.phase i j)) :=
    fun i q j => phaseAcc_eq st.cfg (st.phaseWeights i j) (data.conf i j) (data.phase i j) q
  have hrow : ∀ (p : ℕ × ℤ) (i : Fin pdafDataRows),
      (List.finRange pdafDataCols).foldl
        (fun acc j => phaseAcc st.cfg (st.phaseWeights i j) (data.conf i j) (data.phase i j) acc) p =
      (p.1 + ((List.finRange pdafDataCols).map
          (fun j => cellWc st.cfg (st.phaseWeights i j) (data.conf i j))).sum,
       p.2 + ((List.finRange pdafDataCols).map
          (fun j => cellWcp st.cfg (st.phaseWeights i j) (data.conf i j) (data.phase i j))).sum) :=
    fun p i =>
      foldlPairAdd
        (fun acc j => phaseAcc st.cfg (st.phaseWeights i j) (data.conf i j) (data.phase i j) acc)
        (fun j => cellWc st.cfg (st.phaseWeights i j) (data.conf i j))
        (fun j => cellWcp st.cfg (st.phaseWeights i j) (data.conf i j) (data.phase i j))
        (hcell i) (List.finRange pdafDataCols) p
  have houter :=
    foldlPairAdd
      (fun acc i => (List.finRange pdafDataCols).foldl
        (fun acc j => phaseAcc st.cfg (st.phaseWeights i j) (data.conf i j) (data.phase i j) acc) acc)
      (fun i => ((List.finRange pdafDataCols).map
        (fun j => cellWc st.cfg (st.phaseWeights i j) (data.conf i j))).sum)
      (fun i => ((List.finRange pdafDataCols).map
        (fun j => cellWcp st.cfg (st.phaseWeights i j) (data.conf i j) (data.phase i j))).sum)
      (fun p i => hrow p i) (List.finRange pdafDataRows) (0, 0)
  unfold Af.phaseSums specSumWc specSumWcp
  rw [houter]
  simp [Fin.sum_univ_def]

/-- C1: `getPhase` returns a valid result exactly when
`0 < sumWeights ≤ sumWc`, where `sumWc` is the weighted sum of bias-corrected
confidences over cells with nonzero weight and raw confidence at least
`confThresh` (clipped to `confClip`, `confThresh / 4` subtracted); when valid,
`phase = sumWcp / sumWc` and `conf = sumWc / sumWeights`, and when invalid it
returns `phase = 0`, `conf = 0` and the false flag (no usable PDAF data).
The hypothesis `confThresh ≤ confClip` is the configuration invariant under
which the `ℕ` model coincides with the `uint32_t` arithmetic. -/
theorem getPhase_valid_iff (st : Af) (data : PdafData)
    (hcfg : st.cfg.confThresh ≤ st.cfg.confClip) :
    ((st.getPhase data).1 = true ↔
      0 < st.sumWeights ∧ st.sumWeights ≤ specSumWc st data) ∧
    ((st.getPhase data).1 = true →
      (st.getPhase data).2.1 = (specSumWcp st data : ℚ) / (specSumWc st data : ℚ) ∧
      (st.getPhase data).2.2 = (specSumWc st data : ℚ) / (st.sumWeights : ℚ)) ∧
    ((st.getPhase data).1 = false →
      (st.getPhase data).2.1 = 0 ∧ (st.getPhase data).2.2 = 0) := by
  unfold Af.getPhase
  rw [phaseSums_eq]
  by_cases hv : 0 < st.sumWeights ∧ st.sumWeights ≤ specSumWc st data
  · simp [hv]
  · simp [hv]

/-- An all-zero PDAF statistics frame. -/
def dataZero : PdafData :=
  ⟨fun _ _ => 0, fun _ _ => 0⟩

theorem getPhase_valid_iff_w :
    Af.initial.cfg.confThresh ≤ Af.initial.cfg.confClip ∧
    (Af.initial.getPhase dataZero).2.1 = 0 ∧ (Af.initial.getPhase dataZero).2.2 = 0 := by
  have hcfg : Af.initial.cfg.confThresh ≤ Af.initial.cfg.confClip := by
    norm_num [Af.initial, defaultCfgParams, CfgParams.initialise, Pwl.isEmptyMap]
  refine ⟨hcfg, (getPhase_valid_iff Af.initial dataZero hcfg).2.2 ?_⟩
  rfl

lemma findPeak_eq (st : Af) (i : ℕ) (r1 r2 r3 : ScanRecord)
    (h1 : st.scanData.get? (i - 1) = some r1)
    (h2 : st.scanData.get? i = some r2)
    (h3 : st.scanData.get? (i + 1) = some r3)
    (hi : 0 < i) :
    st.findPeak i =
      if 0 ≤ r2.contrast - r1.contrast ∧
          r2.contrast - r1.contrast < r2.contrast - r3.contrast then
        r2.focus + (0.3125 * (1 - (r2.contrast - r1.contrast) / (r2.contrast - r3.contrast)) *
          (1.6 - (r2.contrast - r1.contrast) / (r2.contrast - r3.contrast))) *
          (r1.focus - r2.focus)
      else if 0 ≤ r2.contrast - r3.contrast ∧
          r2.contrast - r3.contrast < r2.contrast - r1.contrast then
        r2.focus + (0.3125 * (1 - (r2.contrast - r3.contrast) / (r2.contrast - r1.contrast)) *
          (1.6 - (r2.contrast - r3.contrast) / (r2.contrast - r1.contrast))) *
          (r3.focus - r2.focus)
      else r2.focus := by
  have hlen : i + 1 < st.scanData.length := (List.get?_eq_some.mp h3).1
  have g1 : st.scanData.getD (i - 1) ⟨0, 0, 0, 0⟩ = r1 := by
    rw [List.getD_eq_get?, h1]; rfl
  have g2 : st.scanData.getD i ⟨0, 0, 0, 0⟩ = r2 := by
    rw [List.getD_eq_get?, h2]; rfl
  have g3 : st.scanData.getD (i + 1) ⟨0, 0, 0, 0⟩ = r3 := by
    rw [List.getD_eq_get?, h3]; rfl
  unfold Af.findPeak
  dsimp only
  rw [if_pos (⟨hi, hlen⟩ : 0 < i ∧ i + 1 < st.scanData.length), g1, g2, g3]

set_option maxHeartbeats 1600000 in
/-- C6: for three consecutive scan samples `(f - δ, c1)`, `(f, c2)`,
`(f + δ, c2 - ε)` with `c2 > c1` and `ε > 0`, `findPeak` at the middle sample
returns a value strictly between `f - δ` and `f + δ`, equal to the quadratic
interpolation `f + 0.3125 * (1 - r) * (1.6 - r) * (±δ)` toward the neighbour
with the smaller contrast drop (where `r` is the ratio of the smaller drop to
the larger), hence strictly closer to that neighbour; with equal drops it
returns `f` itself. -/
theorem findPeak_between_neighbors (st : Af) (i : ℕ) (f δ c1 c2 ε : ℚ)
    (r1 r2 r3 : ScanRecord)
    (h1 : st.scanData.get? (i - 1) = some r1)
    (h2 : st.scanData.get? i = some r2)
    (h3 : st.scanData.get? (i + 1) = some r3)
    (hi : 0 < i)
    (hf1 : r1.focus = f - δ) (hf2 : r2.focus = f) (hf3 : r3.focus = f + δ)
    (hc1 : r1.contrast = c1) (hc2 : r2.contrast = c2) (hc3 : r3.contrast = c2 - ε)
    (hδ : 0 < δ) (hlt : c1 < c2) (hε : 0 < ε) :
    (f - δ < st.findPeak i ∧ st.findPeak i < f + δ) ∧
    (c2 - c1 < ε →
      st.findPeak i =
        f + (0.3125 * (1 - (c2 - c1) / ε) * (1.6 - (c2 - c1) / ε)) * ((f - δ) - f) ∧
      |st.findPeak i - (f - δ)| < |st.findPeak i - (f + δ)|) ∧
    (ε < c2 - c1 →
      st.findPeak i =
        f + (0.3125 * (1 - ε / (c2 - c1)) * (1.6 - ε / (c2 - c1))) * ((f + δ) - f) ∧
      |st.findPeak i - (f + δ)| < |st.findPeak i - (f - δ)|) ∧
    (c2 - c1 = ε → st.findPeak i = f) := by
  have hkey := findPeak_eq st i r1 r2 r3 h1 h2 h3 hi
  rw [hf1, hf2, hf3, hc1, hc2, hc3, (by ring : c2 - (c2 - ε) = ε)] at hkey
  rcases lt_trichotomy (c2 - c1) ε with hA | hA | hA
  · rw [if_pos ⟨by linarith, hA⟩] at hkey
    have hr0 : 0 < (c2 - c1) / ε := div_pos (by linarith) hε
    have hr1 : (c2 - c1) / ε < 1 := (div_lt_one hε).mpr hA
    have hp0 : 0 < 0.3125 * (1 - (c2 - c1) / ε) * (1.6 - (c2 - c1) / ε) :=
      mul_pos (mul_pos (by norm_num) (by linarith)) (by linarith)
    have hp1 : 0.3125 * (1 - (c2 - c1) / ε) * (1.6 - (c2 - c1) / ε) < 1 := by
      nlinarith [mul_lt_mul_of_pos_left hr1 hr0]
    have hpd0 := mul_pos hp0 hδ
    have hpd1 := mul_lt_mul_of_pos_right hp1 hδ
    refine ⟨⟨by rw [hkey]; nlinarith [hpd0, hpd1], by rw [hkey]; nlinarith [hpd0, hpd1]⟩,
      fun _ => ⟨hkey, ?_⟩,
      fun hB => absurd (hA.trans hB) (lt_irrefl _),
      fun hB => absurd (hB ▸ hA) (lt_irrefl _)⟩
    rw [hkey, abs_of_nonneg (by nlinarith [hpd0, hpd1]), abs_of_nonpos (by nlinarith [hpd0, hpd1])]
    nlinarith [hpd0, hpd1]
  · rw [if_neg (by rw [hA]; exact fun hx => lt_irrefl ε hx.2),
      if_neg (by rw [hA]; exact fun hx => lt_irrefl ε hx.2)] at hkey
    exact ⟨⟨by rw [hkey]; linarith, by rw [hkey]; linarith⟩,
      fun hB => absurd (hA ▸ hB) (lt_irrefl _),
      fun hB => absurd (hA ▸ hB) (lt_irrefl _),
      fun _ => hkey⟩
  · rw [if_neg (fun hx => lt_irrefl ε (hA.trans hx.2)),
      if_pos ⟨by linarith, hA⟩] at hkey
    have hr0 : 0 < ε / (c2 - c1) := div_pos hε (by linarith)
    have hr1 : ε / (c2 - c1) < 1 := (div_lt_one (by linarith)).mpr hA
    have hp0 : 0 < 0.3125 * (1 - ε / (c2 - c1)) * (1.6 - ε / (c2 - c1)) :=
      mul_pos (mul_pos (by norm_num) (by linarith)) (by linarith)
    have hp1 : 0.3125 * (1 - ε / (c2 - c1)) * (1.6 - ε / (c2 - c1)) < 1 := by
      nlinarith [mul_lt_mul_of_pos_left hr1 hr0]
    have hpd0 := mul_pos hp0 hδ
    have hpd1 := mul_lt_mul_of_pos_right hp1 hδ
    refine ⟨⟨by rw [hkey]; nlinarith [hpd0, hpd1], by rw [hkey]; nlinarith [hpd0, hpd1]⟩,
      fun hB => absurd (hB.trans hA) (lt_irrefl _),
      fun _ => ⟨hkey, ?_⟩,
      fun hB => absurd (hB ▸ hA) (lt_irrefl _)⟩
    rw [hkey, abs_of_nonpos (by nlinarith [hpd0, hpd1]), abs_of_nonneg (by nlinarith [hpd0, hpd1])]
    nlinarith [hpd0, hpd1]

/-- Concrete state: a scan history with contrast rising from 1 to 3 then
dropping to 2 at lens positions 0, 1, 2. -/
def wScan : Af :=
  { Af.initial with scanData := [⟨0, 1, 0, 0⟩, ⟨1, 3, 0, 0⟩, ⟨2, 2, 0, 0⟩] }

theorem findPeak_between_neighbors_w :
    (1 : ℚ) - 1 < wScan.findPeak 1 ∧ wScan.findPeak 1 < 1 + 1 :=
  (findPeak_between_neighbors wScan 1 1 1 1 3 1 ⟨0, 1, 0, 0⟩ ⟨1, 3, 0, 0⟩ ⟨2, 2, 0, 0⟩
    rfl rfl rfl (by norm_num) (by norm_num) rfl (by norm_num) rfl rfl (by norm_num)
    (by norm_num) (by norm_num) (by norm_num)).1

lemma clampQ_self_left (lo hi : ℚ) (h : lo ≤ hi) : clampQ lo lo hi = lo := by
  unfold clampQ
  split_ifs <;> linarith

lemma clampQ_eq_of_lt_hi (v lo hi : ℚ) (hlo : lo ≤ v) (h : clampQ v lo hi < hi) :
    clampQ v lo hi = v ∧ v < hi := by
  unfold clampQ at h ⊢
  split_ifs at h ⊢ <;> first | exact ⟨rfl, h⟩ | linarith

lemma updateLensPosition_ftarget (st : Af) :
    (updateLensPosition st).ftarget =
      if ScanState.Pdaf.toNat ≤ st.scanState.toNat then
        clampQ st.ftarget (st.cfg.ranges st.range).focusMin (st.cfg.ranges st.range).focusMax
      else st.ftarget := by
  unfold updateLensPosition
  dsimp only
  split_ifs <;> simp

lemma doScan_proj (c p cf : ℚ) (st : Af) :
    (doScan c p cf st).cfg = st.cfg ∧ (doScan c p cf st).range = st.range ∧
    (doScan c p cf st).speed = st.speed ∧ (doScan c p cf st).mode = st.mode ∧
    (doScan c p cf st).fsmooth = st.fsmooth ∧ (doScan c p cf st).initted = st.initted := by
  unfold doScan
  dsimp only
  split_ifs <;> simp

lemma doScan_coarse_next (c p cf : ℚ) (st : Af)
    (hout : (doScan c p cf st).scanState = ScanState.Coarse) :
    st.scanState = ScanState.Coarse ∧
    st.ftarget < (st.cfg.ranges st.range).focusMax ∧
    (doScan c p cf st).ftarget = st.ftarget + (st.cfg.speeds st.speed).stepCoarse := by
  by_cases hss : st.scanState = ScanState.Coarse
  · refine ⟨hss, ?_⟩
    revert hout
    unfold doScan
    dsimp only
    split_ifs <;> intro hout <;> simp_all [not_or]
  · exfalso
    revert hout
    unfold doScan
    dsimp only
    split_ifs <;> intro hout <;> simp_all

lemma scanRun_consts (c p cf : ℕ → ℚ) (st : Af) (n : ℕ) :
    (scanRun c p cf st n).cfg = st.cfg ∧ (scanRun c p cf st n).range = st.range ∧
    (scanRun c p cf st n).speed = st.speed := by
  induction n with
  | zero => exact ⟨rfl, rfl, rfl⟩
  | succ n ih =>
    obtain ⟨h1, h2, h3⟩ := ih
    obtain ⟨d1, d2, d3, -⟩ := doScan_proj (c n) (p n) (cf n) (scanRun c p cf st n)
    obtain ⟨u1, u2, u3, -⟩ :=
      updateLensPosition_proj (doScan (c n) (p n) (cf n) (scanRun c p cf st n))
    exact ⟨by rw [scanRun, u1, d1, h1], by rw [scanRun, u2, d2, h2], by rw [scanRun, u3, d3, h3]⟩

lemma startProgrammedScan_ftarget (st : Af)
    (hrange : (st.cfg.ranges st.range).focusMin ≤ (st.cfg.ranges st.range).focusMax) :
    (startProgrammedScan st).ftarget = (st.cfg.ranges st.range).focusMin := by
  unfold startProgrammedScan
  dsimp only
  rw [updateLensPosition_ftarget]
  split_ifs <;> simp [clampQ_self_left _ _ hrange]

lemma scanRun_coarse_invariant (c p cf : ℕ → ℚ) (st0 : Af)
    (hstep : 0 < (st0.cfg.speeds st0.speed).stepCoarse)
    (hrange : (st0.cfg.ranges st0.range).focusMin ≤ (st0.cfg.ranges st0.range).focusMax) :
    ∀ n : ℕ, (scanRun c p cf (startProgrammedScan st0) n).scanState = ScanState.Coarse →
      (scanRun c p cf (startProgrammedScan st0) n).ftarget =
        clampQ ((st0.cfg.ranges st0.range).focusMin +
            (n : ℚ) * (st0.cfg.speeds st0.speed).stepCoarse)
          (st0.cfg.ranges st0.range).focusMin (st0.cfg.ranges st0.range).focusMax ∧
      (n = 0 ∨ (st0.cfg.ranges st0.range).focusMin +
          ((n : ℚ) - 1) * (st0.cfg.speeds st0.speed).stepCoarse <
        (st0.cfg.ranges st0.range).focusMax) := by
  obtain ⟨pc, pr, ps, -, -, -, -, -⟩ := startProgrammedScan_proj st0
  intro n
  induction n with
  | zero =>
    intro _
    refine ⟨?_, Or.inl rfl⟩
    rw [scanRun, startProgrammedScan_ftarget st0 hrange]
    rw [Nat.cast_zero, zero_mul, add_zero, clampQ_self_left _ _ hrange]
  | succ n ih =>
    intro hC
    set Sn := scanRun c p cf (startProgrammedScan st0) n with hSn
    obtain ⟨qc, qr, qs⟩ := scanRun_consts c p cf (startProgrammedScan st0) n
    have hcfg : Sn.cfg = st0.cfg := by rw [← hSn] at qc; rw [qc, pc]
    have hrg : Sn.range = st0.range := by rw [← hSn] at qr; rw [qr, pr]
    have hsp : Sn.speed = st0.speed := by rw [← hSn] at qs; rw [qs, ps]
    have hstep' : (0 : ℚ) < (Sn.cfg.speeds Sn.speed).stepCoarse := by
      rw [hcfg, hsp]; exact hstep
    obtain ⟨u1, u2, u3, u4, -⟩ :=
      updateLensPosition_proj (doScan (c n) (p n) (cf n) Sn)
    have hdC : (doScan (c n) (p n) (cf n) Sn).scanState = ScanState.Coarse := by
      rw [← u4]; exact hC
    obtain ⟨hSnC, hlt, hstepped⟩ := doScan_coarse_next (c n) (p n) (cf n) Sn hdC
    obtain ⟨hft, -⟩ := ih hSnC
    rw [hcfg, hrg] at hlt
    rw [hcfg, hsp] at hstepped
    have hv0 : (st0.cfg.ranges st0.range).focusMin ≤
        (st0.cfg.ranges st0.range).focusMin + (n : ℚ) * (st0.cfg.speeds st0.speed).stepCoarse := by
      have : (0 : ℚ) ≤ (n : ℚ) * (st0.cfg.speeds st0.speed).stepCoarse :=
        mul_nonneg (Nat.cast_nonneg n) hstep.le
      linarith
    have hclamp := clampQ_eq_of_lt_hi _ _ _ hv0 (by rw [← hft]; exact hlt)
    constructor
    · rw [scanRun, updateLensPosition_ftarget]
      obtain ⟨d1, d2, -⟩ := doScan_proj (c n) (p n) (cf n) Sn
      rw [if_pos (by rw [hdC]; decide), d1, d2, hcfg, hrg, hstepped, hft, hclamp.1]
      have : (st0.cfg.ranges st0.range).focusMin +
          (n : ℚ) * (st0.cfg.speeds st0.speed).stepCoarse +
          (st0.cfg.speeds st0.speed).stepCoarse =
        (st0.cfg.ranges st0.range).focusMin +
          ((n : ℚ) + 1) * (st0.cfg.speeds st0.speed).stepCoarse := by ring
      rw [this, Nat.cast_succ]
    · refine Or.inr ?_
      have : ((n : ℚ) + 1 - 1) = (n : ℚ) := by ring
      rw [Nat.cast_succ, this]
      have := hclamp.2
      linarith

/-- C5: a programmed scan started by `startProgrammedScan` advances `ftarget`
from `focusMin` by `stepCoarse` per Coarse scan step; for every contrast
sequence (in particular one strictly decreasing after its peak) the engine can
still be in the Coarse phase after `n` scan steps only when
`n ≤ ⌈(focusMax − focusMin) / stepCoarse⌉`, so the Coarse phase terminates
within that many steps. -/
theorem coarse_scan_step_bound (st0 : Af) (c p cf : ℕ → ℚ) (n : ℕ)
    (hstep : 0 < (st0.cfg.speeds st0.speed).stepCoarse)
    (hrange : (st0.cfg.ranges st0.range).focusMin ≤ (st0.cfg.ranges st0.range).focusMax)
    (hC : (scanRun c p cf (startProgrammedScan st0) n).scanState = ScanState.Coarse) :
    (n : ℤ) ≤ ⌈((st0.cfg.ranges st0.range).focusMax - (st0.cfg.ranges st0.range).focusMin) /
      (st0.cfg.speeds st0.speed).stepCoarse⌉ := by
  obtain ⟨-, hcase⟩ := scanRun_coarse_invariant c p cf st0 hstep hrange n hC
  rcases hcase with h0 | hlt
  · subst h0
    exact_mod_cast Int.ceil_nonneg (div_nonneg (by linarith) hstep.le)
  · have h1 : ((n : ℚ) - 1) <
        ((st0.cfg.ranges st0.range).focusMax - (st0.cfg.ranges st0.range).focusMin) /
          (st0.cfg.speeds st0.speed).stepCoarse := by
      rw [lt_div_iff hstep]
      linarith
    have h2 : (n : ℤ) - 1 <
        ⌈((st0.cfg.ranges st0.range).focusMax - (st0.cfg.ranges st0.range).focusMin) /
          (st0.cfg.speeds st0.speed).stepCoarse⌉ := by
      refine Int.lt_ceil.mpr ?_
      push_cast
      linarith
    omega

theorem coarse_scan_step_bound_w :
    (0 : ℚ) < (Af.initial.cfg.speeds Af.initial.speed).stepCoarse ∧
    (Af.initial.cfg.ranges Af.initial.range).focusMin ≤
      (Af.initial.cfg.ranges Af.initial.range).focusMax ∧
    ((0 : ℕ) : ℤ) ≤ ⌈((Af.initial.cfg.ranges Af.initial.range).focusMax -
      (Af.initial.cfg.ranges Af.initial.range).focusMin) /
      (Af.initial.cfg.speeds Af.initial.speed).stepCoarse⌉ := by
  have h1 : (0 : ℚ) < (Af.initial.cfg.speeds Af.initial.speed).stepCoarse := by
    norm_num [Af.initial, defaultCfgParams, defaultSpeedParams, CfgParams.initialise,
      Pwl.isEmptyMap]
  have h2 : (Af.initial.cfg.ranges Af.initial.range).focusMin ≤
      (Af.initial.cfg.ranges Af.initial.range).focusMax := by
    norm_num [Af.initial, defaultCfgParams, defaultRangeParams, CfgParams.initialise,
      Pwl.isEmptyMap]
  exact ⟨h1, h2, coarse_scan_step_bound Af.initial (fun _ => 0) (fun _ => 0) (fun _ => 0) 0
    h1 h2 rfl⟩

lemma earlyTerminationByPhase_proj (phase : ℚ) (st : Af) :
    (earlyTerminationByPhase phase st).2.fsmooth = st.fsmooth ∧
    (earlyTerminationByPhase phase st).2.cfg = st.cfg ∧
    (earlyTerminationByPhase phase st).2.range = st.range ∧
    (earlyTerminationByPhase phase st).2.speed = st.speed ∧
    (earlyTerminationByPhase phase st).2.scanState = st.scanState ∧
    (earlyTerminationByPhase phase st).2.mode = st.mode ∧
    (earlyTerminationByPhase phase st).2.initted = st.initted := by
  unfold earlyTerminationByPhase
  dsimp only
  split_ifs <;> simp

lemma clampQ_slew_bounds (t fs lo hi s : ℚ) (ht1 : lo ≤ t) (ht2 : t ≤ hi) (hs : 0 ≤ s) :
    min fs lo ≤ clampQ t (fs - s) (fs + s) ∧ clampQ t (fs - s) (fs + s) ≤ max fs hi := by
  unfold clampQ
  split_ifs <;>
    constructor <;>
      linarith [min_le_left fs lo, min_le_right fs lo, le_max_left fs hi, le_max_right fs hi]

lemma updateLensPosition_fsmooth_uninitted (st : Af) (hin : st.initted = false) :
    (updateLensPosition st).fsmooth = (updateLensPosition st).ftarget := by
  unfold updateLensPosition
  dsimp only
  split_ifs <;> simp_all

lemma updateLensPosition_bounds (st : Af)
    (hP : ScanState.Pdaf.toNat ≤ st.scanState.toNat)
    (hrange : (st.cfg.ranges st.range).focusMin ≤ (st.cfg.ranges st.range).focusMax)
    (hslew : 0 ≤ (st.cfg.speeds st.speed).maxSlew) :
    ((st.cfg.ranges st.range).focusMin ≤ (updateLensPosition st).ftarget ∧
      (updateLensPosition st).ftarget ≤ (st.cfg.ranges st.range).focusMax) ∧
    (min st.fsmooth (st.cfg.ranges st.range).focusMin ≤ (updateLensPosition st).fsmooth ∧
      (updateLensPosition st).fsmooth ≤ max st.fsmooth (st.cfg.ranges st.range).focusMax) := by
  have hft : (updateLensPosition st).ftarget =
      clampQ st.ftarget (st.cfg.ranges st.range).focusMin (st.cfg.ranges st.range).focusMax := by
    rw [updateLensPosition_ftarget, if_pos hP]
  have hmem := clampQ_mem st.ftarget (st.cfg.ranges st.range).focusMin
    (st.cfg.ranges st.range).focusMax hrange
  rw [hft]
  refine ⟨hmem, ?_⟩
  cases hin : st.initted with
  | false =>
    rw [updateLensPosition_fsmooth_uninitted st hin, hft]
    exact ⟨le_trans (min_le_right _ _) hmem.1, le_trans hmem.2 (le_max_right _ _)⟩
  | true =>
    rw [updateLensPosition_fsmooth_initted st hin, hft]
    exact clampQ_slew_bounds _ _ _ _ _ hmem.1 hmem.2 hslew

lemma doAF_skip (contrast phase conf : ℚ) (st : Af) (h : 0 < st.skipCount) :
    doAF contrast phase conf st = { st with skipCount := st.skipCount - 1 } := by
  unfold doAF
  rw [if_pos h]

lemma doAF_consts (contrast phase conf : ℚ) (st : Af) :
    (doAF contrast phase conf st).cfg = st.cfg ∧
    (doAF contrast phase conf st).range = st.range ∧
    (doAF contrast phase conf st).speed = st.speed := by
  obtain ⟨-, -, pc, psp, pr, -, -, -⟩ := doPDAF_proj phase conf st
  obtain ⟨-, ec, er, es, -, -, -⟩ := earlyTerminationByPhase_proj phase st
  obtain ⟨s1, s2, s3, -, -, -, -, -⟩ := startProgrammedScan_proj { st with dropCount := st.dropCount + 1 }
  obtain ⟨e1, e2, e3, -, -, -⟩ := doScan_proj contrast phase conf (earlyTerminationByPhase phase st).2
  obtain ⟨f1, f2, f3, -, -, -⟩ := doScan_proj contrast phase conf st
  unfold doAF
  dsimp only
  split_ifs <;> simp_all

lemma doAF_fsmooth_cases (contrast phase conf : ℚ) (st : Af)
    (hrange : (st.cfg.ranges st.range).focusMin ≤ (st.cfg.ranges st.range).focusMax)
    (hslew : 0 ≤ (st.cfg.speeds st.speed).maxSlew) :
    (doAF contrast phase conf st).fsmooth = st.fsmooth ∨
    (min st.fsmooth (st.cfg.ranges st.range).focusMin ≤ (doAF contrast phase conf st).fsmooth ∧
      (doAF contrast phase conf st).fsmooth ≤ max st.fsmooth (st.cfg.ranges st.range).focusMax) := by
  by_cases hskip : 0 < st.skipCount
  · left
    rw [doAF_skip contrast phase conf st hskip]
  · by_cases hss : st.scanState = ScanState.Pdaf
    · by_cases hc : conf > (if st.dropCount ≠ 0 then (1 : ℚ) else 0.25) * (st.cfg.confEpsilon : ℚ)
      · left
        rw [doAF_pdaf_track contrast phase conf st (by omega) hss hc]
        obtain ⟨-, -, -, -, -, hpf, -, -⟩ := doPDAF_proj phase conf st
        split_ifs <;> simpa using hpf
      · rw [doAF_pdaf_drop contrast phase conf st (by omega) hss hc]
        by_cases hfire : st.dropCount + 1 = (st.cfg.speeds st.speed).dropoutFrames
        · right
          rw [if_pos hfire]
          have hb := updateLensPosition_bounds { st with dropCount := st.dropCount + 1, ftarget := (st.cfg.ranges st.range).focusMin } (by show ScanState.Pdaf.toNat ≤ st.scanState.toNat; rw [hss]) hrange hslew
          exact hb.2
        · left
          rw [if_neg hfire]
    · left
      obtain ⟨ef, -, -, -, -, -, -⟩ := earlyTerminationByPhase_proj phase st
      obtain ⟨-, -, -, -, df1, -⟩ := doScan_proj contrast phase conf (earlyTerminationByPhase phase st).2
      obtain ⟨-, -, -, -, df2, -⟩ := doScan_proj contrast phase conf st
      unfold doAF
      rw [if_neg hskip, if_neg hss]
      by_cases hcb : ScanState.Coarse.toNat ≤ st.scanState.toNat ∧ st.fsmooth = st.ftarget
      · rw [if_pos hcb]
        split_ifs <;> simp_all
      · rw [if_neg hcb]

/-- C3 (amended): after a per-frame update (`doAF` followed by
`updateLensPosition`) that ends with `scanState ≥ Pdaf`, the target `ftarget`
lies within `[focusMin, focusMax]` of the active range; the smoothed position
`fsmooth`, being slew-rate limited, need not be inside the range yet, but it
lies within `[min fsmooth₀ focusMin, max fsmooth₀ focusMax]`, i.e. it never
moves further from the range than the pre-update position `fsmooth₀`. -/
theorem frame_update_range_invariant (contrast phase conf : ℚ) (st : Af)
    (hrange : (st.cfg.ranges st.range).focusMin ≤ (st.cfg.ranges st.range).focusMax)
    (hslew : 0 ≤ (st.cfg.speeds st.speed).maxSlew)
    (hP : ScanState.Pdaf.toNat ≤
      (updateLensPosition (doAF contrast phase conf st)).scanState.toNat) :
    ((st.cfg.ranges st.range).focusMin ≤
        (updateLensPosition (doAF contrast phase conf st)).ftarget ∧
      (updateLensPosition (doAF contrast phase conf st)).ftarget ≤
        (st.cfg.ranges st.range).focusMax) ∧
    (min st.fsmooth (st.cfg.ranges st.range).focusMin ≤
        (updateLensPosition (doAF contrast phase conf st)).fsmooth ∧
      (updateLensPosition (doAF contrast phase conf st)).fsmooth ≤
        max st.fsmooth (st.cfg.ranges st.range).focusMax) := by
  obtain ⟨ac, ar, asp⟩ := doAF_consts contrast phase conf st
  have hP' : ScanState.Pdaf.toNat ≤ (doAF contrast phase conf st).scanState.toNat := by
    rw [← (updateLensPosition_proj (doAF contrast phase conf st)).2.2.2.1]
    exact hP
  have hrange' : ((doAF contrast phase conf st).cfg.ranges
      (doAF contrast phase conf st).range).focusMin ≤
      ((doAF contrast phase conf st).cfg.ranges (doAF contrast phase conf st).range).focusMax := by
    rw [ac, ar]; exact hrange
  have hslew' : 0 ≤ ((doAF contrast phase conf st).cfg.speeds
      (doAF contrast phase conf st).speed).maxSlew := by
    rw [ac, asp]; exact hslew
  have hb := updateLensPosition_bounds (doAF contrast phase conf st) hP' hrange' hslew'
  rw [ac, ar] at hb
  refine ⟨hb.1, ?_⟩
  rcases doAF_fsmooth_cases contrast phase conf st hrange hslew with heq | ⟨hl, hr⟩
  · rw [heq] at hb
    exact hb.2
  · exact ⟨le_trans (le_min hl (min_le_right st.fsmooth _)) hb.2.1,
      le_trans hb.2.2 (max_le hr (le_max_right st.fsmooth _))⟩

theorem frame_update_range_invariant_w :
    ((wPdaf.cfg.ranges wPdaf.range).focusMin ≤ (wPdaf.cfg.ranges wPdaf.range).focusMax) ∧
    (0 ≤ (wPdaf.cfg.speeds wPdaf.speed).maxSlew) ∧
    (ScanState.Pdaf.toNat ≤ (updateLensPosition (doAF 0 0 0 wPdaf)).scanState.toNat) ∧
    ((wPdaf.cfg.ranges wPdaf.range).focusMin ≤
      (updateLensPosition (doAF 0 0 0 wPdaf)).ftarget ∧
     (updateLensPosition (doAF 0 0 0 wPdaf)).ftarget ≤
      (wPdaf.cfg.ranges wPdaf.range).focusMax) := by
  have h1 : (wPdaf.cfg.ranges wPdaf.range).focusMin ≤ (wPdaf.cfg.ranges wPdaf.range).focusMax := by
    norm_num [wPdaf, Af.initial, defaultCfgParams, defaultRangeParams, CfgParams.initialise,
      Pwl.isEmptyMap]
  have h2 : (0 : ℚ) ≤ (wPdaf.cfg.speeds wPdaf.speed).maxSlew := by
    norm_num [wPdaf, Af.initial, defaultCfgParams, defaultSpeedParams, CfgParams.initialise,
      Pwl.isEmptyMap]
  have h3 : ScanState.Pdaf.toNat ≤ (updateLensPosition (doAF 0 0 0 wPdaf)).scanState.toNat := by
    norm_num [doAF, wPdaf, updateLensPosition, Af.initial, defaultCfgParams, defaultSpeedParams,
      defaultRangeParams, CfgParams.initialise, Pwl.isEmptyMap, clampQ, ScanState.toNat]
  exact ⟨h1, h2, h3, (frame_update_range_invariant 0 0 0 wPdaf h1 h2 h3).1⟩

/-- The engine state after: manual positioning at 15 dioptres (inside the
default position-map domain but above the Normal range's `focusMax = 12`),
a switch to Continuous mode, the Trigger dispatch into `startAF`, and one
per-frame update (`doAF` then `updateLensPosition`). -/
def wOvershoot : Af :=
  updateLensPosition (doAF 0 0 0 (startAF (setMode AfMode.Continuous
    (setLensPosition 15 Af.initial).2.1)))

/-- The default configuration with the synthesized position map, written out. -/
def cexCfg : CfgParams :=
  { ranges := fun _ => defaultRangeParams, speeds := fun _ => defaultSpeedParams,
    confEpsilon := 8, confThresh := 16, confClip := 512, skipFrames := 5,
    map := ⟨[(0, 445), (15, 925)]⟩ }

/-- State after `setLensPosition 15` from the initial state. -/
def cexA : Af :=
  { cfg := cexCfg, range := 0, speed := 0, mode := AfMode.Manual, pauseFlag := false,
    phaseWeights := fun _ _ => 0, sumWeights := 0, scanState := ScanState.Idle,
    initted := true, ftarget := 15, fsmooth := 15, prevContrast := 0, skipCount := 5,
    stepCount := 0, dropCount := 0, scanMaxContrast := 0, scanMinContrast := 1000000000,
    scanMaxIndex := 0, scanData := [], reportState := AfState.Idle }

/-- State after the switch to Continuous mode. -/
def cexB : Af :=
  { cexA with mode := AfMode.Continuous, scanState := ScanState.Trigger }

/-- State after the Trigger dispatch into `startAF`. -/
def cexC : Af :=
  { cexB with scanState := ScanState.Pdaf, reportState := AfState.Scanning }

/-- State after `doAF` (a skip frame: `skipCount` drops from 5 to 4). -/
def cexD : Af :=
  { cexC with skipCount := 4 }

/-- State after `updateLensPosition`: `ftarget` clamped to 12, `fsmooth`
slew-limited to 13. -/
def cexE : Af :=
  { cexD with ftarget := 12, fsmooth := 13 }

/-- C3 counterexample: in the reachable state above the per-frame update ends
with `scanState = Pdaf` yet `fsmooth = 13 > 12 = focusMax` — the slew-rate
limit keeps `fsmooth` outside `[focusMin, focusMax]` for the active range, so
the claimed invariant fails for `fsmooth` (only `ftarget` is clamped). -/
theorem range_invariant_fsmooth_cex :
    ScanState.Pdaf.toNat ≤ wOvershoot.scanState.toNat ∧
    wOvershoot.fsmooth = 13 ∧
    (wOvershoot.cfg.ranges wOvershoot.range).focusMax = 12 ∧
    ¬(wOvershoot.fsmooth ≤ (wOvershoot.cfg.ranges wOvershoot.range).focusMax) := by
  have hA : (setLensPosition 15 Af.initial).2.1 = cexA := by
    norm_num [setLensPosition, Af.initial, defaultCfgParams, CfgParams.initialise,
      Pwl.isEmptyMap, Pwl.append, Pwl.domainClip, clampQ, updateLensPosition,
      ScanState.toNat, cexA, cexCfg, defaultRangeParams, defaultSpeedParams]
  have hB : setMode AfMode.Continuous cexA = cexB := by
    norm_num [setMode, cexA, cexB, cexCfg]
    exact fun h => absurd h (by decide)
  have hC : startAF cexB = cexC := by
    norm_num [startAF, cexA, cexB, cexC, cexCfg, defaultSpeedParams]
  have hD : doAF 0 0 0 cexC = cexD := by
    norm_num [doAF, cexA, cexB, cexC, cexD, cexCfg]
  have hE : updateLensPosition cexD = cexE := by
    norm_num [updateLensPosition, cexA, cexB, cexC, cexD, cexE, cexCfg, clampQ,
      ScanState.toNat, defaultRangeParams, defaultSpeedParams]
  have hw : wOvershoot = cexE := by
    rw [wOvershoot, hA, hB, hC, hD, hE]
  rw [hw]
  norm_num [cexE, cexD, cexC, cexB, cexA, cexCfg, defaultRangeParams, ScanState.toNat]
